import Mathlib

/-!
Verification development for the bridgy-fed core: shallow embedding of
`src/nostr_hub.py`, `src/nostr.py` and `src/atproto.py`, plus the pieces of
the shared data model (`models.py`) that those files use, modelled from the
spec where the defining file is not part of the source tree.
-/

namespace BridgyFed

/-- Modelled from the spec: `models.Target` is a `(uri, protocol)` pair used as
a value type inside `copies` (spec section 3). -/
structure Target where
  uri : String
  protocol : String
deriving DecidableEq, Repr

/-- Modelled from the spec: `models.User.add` / `models.Object.add` for the
`copies` property, which the spec describes as a set of `Target` (section 3);
adding appends the value only when it is not already present. -/
def addCopy (copies : List Target) (t : Target) : List Target :=
  if t ∈ copies then copies else copies ++ [t]

/-- Modelled from the spec: `models.User.get_copy` / `models.Object.get_copy`
returns the uri of this user's/object's copy (shadow) in the given protocol,
if any (spec section 3: for every `copy ∈ user.copies` the shadow identity is
keyed by its protocol label). -/
def getCopy (copies : List Target) (protocol : String) : Option String :=
  (copies.find? fun c => c.protocol == protocol).map (·.uri)

/-! ## nostr_hub.py -/

/-- A Nostr event as seen by `nostr_hub.handle`: the fields the code reads.
`kind = none` models a missing `kind` key; an empty string models a missing
(or empty, hence falsy) `pubkey` / `id` / `sig`. `tags` is the raw list of
string lists. -/
structure NostrEvent where
  kind : Option Int
  pubkey : String
  id : String
  sig : String
  tags : List (List String)
  created_at : Int
deriving DecidableEq, Repr

/-- granary constant `KIND_DELETE` (NIP-09 deletion request). -/
def KIND_DELETE : Int := 5

/-- granary constant `KIND_REACTION` (NIP-25 reaction). -/
def KIND_REACTION : Int := 7

/-- Whether computing `mentions` in `nostr_hub.handle` line 236
(`tag[1] for tag in event.get('tags', []) if tag[0] == 'p'`) raises
`IndexError` on this tag: the tag has no element at index 0, or is a `p` tag
with no element at index 1. The exception aborts `handle` before any task is
enqueued. -/
def tagRaises : List String → Bool
  | [] => true
  | [t0] => t0 = "p"
  | _ :: _ :: _ => false

/-- The `mentions` set of `nostr_hub.handle` line 236 (for tag lists on which
its computation does not raise): the pubkeys at index 1 of the `p` tags. -/
def pMentions (tags : List (List String)) : List String :=
  tags.filterMap fun t => match t with
    | t0 :: t1 :: _ => if t0 = "p" then some t1 else none
    | _ => none

/-- The `receive` task enqueued by `nostr_hub.handle` (the fields passed to
`common.create_task`). `delayed` records whether `DELETE_TASK_DELAY` was used. -/
structure ReceiveTask where
  id : String
  source_protocol : String
  authed_as : String
  nostr : NostrEvent
  delayed : Bool
deriving DecidableEq, Repr

/-- External granary.nostr functions used by `nostr_hub.handle`, treated as
oracles (the spec leaves the granary translator opaque): `verify` checks the
event id and Schnorr signature; `uri_for` and `id_to_uri` derive NIP-21 URIs
and return `none` where the Python functions raise `TypeError`/`ValueError`. -/
structure NostrOracles where
  verify : NostrEvent → Bool
  uriFor : NostrEvent → Option String
  idToUri : String → String → Option String

/-- Shallow embedding of `nostr_hub.handle` (src/nostr_hub.py lines 222-263).
Returns the `receive` task enqueued, or `none` when the event is dropped
(malformed, irrelevant, bad signature, or bad id/pubkey). -/
def handle (g : NostrOracles) (nostr_pubkeys bridged_pubkeys : List String)
    (event : NostrEvent) : Option ReceiveTask :=
  if ¬(event.kind.isSome ∧ event.pubkey ≠ "" ∧ event.id ≠ "" ∧ event.sig ≠ "") then
    none
  else if event.tags.any tagRaises then
    none   -- IndexError computing mentions propagates; no task
  else if ¬(event.pubkey ∈ nostr_pubkeys
              ∨ (pMentions event.tags).any (· ∈ bridged_pubkeys)) then
    none
  else if ¬g.verify event then
    none
  else match g.uriFor event, g.idToUri "npub" event.pubkey with
    | some obj_id, some npub_uri =>
      some { id := obj_id, source_protocol := "nostr", authed_as := npub_uri,
             nostr := event,
             delayed := event.kind == some KIND_DELETE }
    | _, _ => none

/-- One REQ filter as built by `nostr_hub.subscribe` (lines 165-175). The
Python dicts there carry either a `#p` key or an `authors` key, plus `kinds`;
neither dict ever has a `since` key, which `since = none` records. -/
structure NostrFilter where
  p : Option (List String)
  authors : Option (List String)
  kinds : List Int
  since : Option Int
deriving DecidableEq, Repr

/-- `nostr_hub.AUTHOR_FILTER_KINDS = list(Nostr.SUPPORTED_KINDS - KIND_REACTION)`
(src/nostr_hub.py line 38), over an abstract `SUPPORTED_KINDS` list
(`Nostr.SUPPORTED_KINDS` is inherited protocol configuration, not defined in
src/nostr.py). -/
def AUTHOR_FILTER_KINDS (supportedKinds : List Int) : List Int :=
  supportedKinds.filter (· ≠ KIND_REACTION)

/-- The two filters of the `REQ` message `nostr_hub.subscribe` sends
(src/nostr_hub.py lines 165-175): one on `#p` over sorted bridged pubkeys with
all supported kinds, one on `authors` over sorted native Nostr pubkeys with
`AUTHOR_FILTER_KINDS`. -/
def buildReq (supportedKinds : List Int) (bridged_pubkeys nostr_pubkeys : List String) :
    List NostrFilter :=
  [ { p := some (bridged_pubkeys.mergeSort (· ≤ ·)), authors := none,
      kinds := supportedKinds, since := none },
    { p := none, authors := some (nostr_pubkeys.mergeSort (· ≤ ·)),
      kinds := AUTHOR_FILTER_KINDS supportedKinds, since := none } ]

/-- A frame received from a relay in `nostr_hub.subscribe`'s inner loop. -/
inductive RelayFrame where
  | event (e : NostrEvent)
  | closed
  | okFrame
  | eose
  | notice
deriving DecidableEq, Repr

/-- The REQ messages (filter lists) `nostr_hub.subscribe` sends over one
websocket connection, as a function of the frames received: the outer
`while True` loop sends a REQ (lines 165-177), then the inner loop processes
frames; a `CLOSED` frame breaks the inner loop (lines 201-203), after which the
outer loop sends the next REQ. No state is read or persisted between REQs:
each is `buildReq` of the same pubkey sets, with no `since` cursor. -/
def reqsSent (supportedKinds : List Int) (bridged_pubkeys nostr_pubkeys : List String) :
    List RelayFrame → List (List NostrFilter)
  | frames =>
    buildReq supportedKinds bridged_pubkeys nostr_pubkeys :: go frames
where
  go : List RelayFrame → List (List NostrFilter)
  | [] => []
  | .closed :: rest =>
    buildReq supportedKinds bridged_pubkeys nostr_pubkeys :: go rest
  | _ :: rest => go rest

/-! ## nostr.py -/

/-- Environment for `Nostr.send` (src/nostr.py lines 343-377): the converted,
signed event's id-derived NIP-21 uri (`id_to_uri(bech32_prefix_for(event),
event.id)`, granary), and whether the relay connection dropped with
`ConnectionClosedOK` during the publish exchange. -/
structure NostrSendEnv where
  eventUri : String
  connectionClosedOk : Bool
deriving DecidableEq, Repr

namespace Nostr

/-- Shallow embedding of `Nostr.send` (src/nostr.py lines 343-377), restricted
to its effect on the object's `copies` and its boolean result: on a dropped
connection it returns False leaving `copies` alone; otherwise it removes every
copy whose protocol is `nostr`, adds a Target for the freshly published
event's uri with protocol `nostr` (`Nostr.LABEL`), and returns True. -/
def send (env : NostrSendEnv) (copies : List Target) : Bool × List Target :=
  if env.connectionClosedOk then
    (false, copies)
  else
    (true, addCopy (copies.filter fun c => c.protocol ≠ "nostr")
                   { uri := env.eventUri, protocol := "nostr" })

end Nostr

/-- A bridged user as queried by the NIP-05 endpoint (src/nostr.py lines
394-405): its protocol's label, `handle`, `handle_as_domain`, key id,
whether `is_enabled(Nostr)` holds, and its `copies`. -/
structure NipUser where
  protoLabel : String
  handle : Option String
  handle_as_domain : Option String
  id : String
  enabledNostr : Bool
  copies : List Target
deriving DecidableEq, Repr

/-- The disjunctive match of the indexed query in `nip_05`
(src/nostr.py lines 397-400): the user belongs to the requesting protocol and
its `handle`, `handle_as_domain`, or key equals `name`. -/
def nipMatches (proto name : String) (u : NipUser) : Bool :=
  u.protoLabel == proto
    && (u.handle == some name || u.handle_as_domain == some name || u.id == name)

/-- Shallow embedding of the `/.well-known/nostr.json` NIP-05 endpoint
(src/nostr.py lines 380-407). `forRequest` is `Protocol.for_request()`
(the requesting protocol's label, if any); `uriToId` is granary's
`uri_to_id` (npub uri to hex pubkey); `users` is the datastore, queried with
`.get()`, modelled as the first matching user. Returns the
`name ↦ hex pubkey` pair served in `names`, or `none` for a 404. -/
def nip_05 (uriToId : String → String) :
    Option String → List NipUser → String → Option (String × String)
  | none, _, _ => none
  | some proto, users, name =>
    if proto = "nostr" then none
    else match users.find? (nipMatches proto name) with
      | none => none
      | some user =>
        if user.enabledNostr then
          match getCopy user.copies "nostr" with
          | some npub => some (name, uriToId npub)
          | none => none
        else none

/-! ## atproto.py: create_for -/

/-- arroba constant `TOMBSTONED` (a repo status). -/
def TOMBSTONED : String := "tombstoned"

/-- The datastore/storage state `ATProto.create_for` touches: the user's
persisted `copies`, the user's profile Object's `copies`, whether the user has
a profile Object with `as1`, the repos in arroba storage (DID to status, where
`none` is active), and counters of PLC operations submitted and DNS TXT
records installed. -/
structure AtWorld where
  userCopies : List Target
  userObjCopies : List Target
  userHasObj : Bool
  userObjAs1 : Bool
  repos : List (String × Option String)
  plcOps : Nat
  dnsWrites : Nat
deriving DecidableEq, Repr

/-- `arroba.server.storage.load_repo`: the status of the repo stored for a
DID, or `none` if no repo exists (in which case `load_repo` raises). -/
def lookupRepo (repos : List (String × Option String)) (did : String) :
    Option (Option String) :=
  (repos.find? fun r => r.1 == did).map (·.2)

/-- `arroba.server.storage.activate_repo`: sets the repo's status to active. -/
def setRepoActive (repos : List (String × Option String)) (did : String) :
    List (String × Option String) :=
  repos.map fun r => if r.1 == did then (r.1, none) else r

/-- External oracles for `ATProto.create_for`: handle/DNS facts, and each
fallible external step of the new-DID path (`.error` models a raised
exception). `setDns` is the GCP DNS API interaction of `set_dns`, which can
raise; `reloadProfile` yields whether the user has a profile object with
`as1` afterwards; `pinnedFetch` yields whether a pinned post was fetched and
converted; `profileConvert` is `none` where conversion fails and the code
raises `ValueError`. -/
structure CreateForEnv where
  handleEndsSuperdomain : Bool
  handleReserved : Bool
  createPlc : Except Unit String
  setDns : Except Unit Unit
  reloadProfile : Except Unit Bool
  repoCreateOk : Bool
  pinnedFetch : Except Unit Bool
  commit1Ok : Bool
  profileConvert : Option Unit
  commit2Ok : Bool
deriving Repr

/-- How many DNS TXT records the reactivate branch installs: one iff the
handle ends in the superdomain and is not reserved (src/atproto.py 468-469). -/
def reactivateDnsDelta (endsSuperdomain reserved : Bool) : Nat :=
  if endsSuperdomain ∧ ¬reserved then 1 else 0

/-- The tombstoned branch wipes `user.obj.copies` when the user has a profile
Object (src/atproto.py lines 460-462). -/
def wipeIf (hasObj : Bool) (cs : List Target) : List Target :=
  if hasObj then [] else cs

/-- Sequencing of fallible steps over the world: a raise short-circuits. -/
def andThen :
    Except AtWorld AtWorld → (AtWorld → Except AtWorld AtWorld) →
    Except AtWorld AtWorld
  | .error w, _ => .error w
  | .ok w, f => f w

/-- `did.create_plc` as a step: on success run the continuation with the new
DID; on a raise return the entry world. -/
def withPlc : Except Unit String → AtWorld → (String → Except AtWorld AtWorld) →
    Except AtWorld AtWorld
  | .error _, w, _ => .error w
  | .ok did, _, f => f did

namespace ATProto

/-- The profile-record section of the new-DID path (src/atproto.py lines
525-541): when the user has a profile object with `as1`, convert it (raising
`ValueError` on a failed conversion), commit it together with the derived
writes, and record the profile record's copy on the user's profile Object. -/
def profileStep (env : CreateForEnv) (did_plc : String) (w : AtWorld) :
    Except AtWorld AtWorld :=
  if w.userHasObj ∧ w.userObjAs1 then
    match env.profileConvert with
    | none => .error w        -- raise ValueError (line 528)
    | some _ =>
      if ¬env.commit2Ok then .error w
      else
        let t : Target :=
          { uri := "at://" ++ did_plc ++ "/app.bsky.actor.profile/self",
            protocol := "atproto" }
        .ok { w with userObjCopies := addCopy w.userObjCopies t }
  else .ok w

/-- The profile fetch of the new-DID path (src/atproto.py lines 484-485):
when the user has no profile object with `as1`, `user.reload_profile()` runs
and may raise; on success it reports whether a profile with `as1` is now
present. -/
def reloadStep (env : CreateForEnv) (w : AtWorld) : Except AtWorld AtWorld :=
  if ¬(w.userHasObj ∧ w.userObjAs1) then
    match env.reloadProfile with
    | .error _ => .error w
    | .ok b => .ok { w with userHasObj := w.userHasObj ∨ b, userObjAs1 := b }
  else .ok w

/-- The pinned-post staging of the new-DID path (src/atproto.py lines
493-518): fetching and converting the featured post can raise; the pinned
write and the featured Object's copy are not tracked here. -/
def pinnedStep (env : CreateForEnv) (w : AtWorld) : Except AtWorld AtWorld :=
  if w.userHasObj ∧ w.userObjAs1 then
    match env.pinnedFetch with
    | .error _ => .error w
    | .ok _ => .ok w
  else .ok w

/-- `set_dns` on the new-DID path (src/atproto.py line 481, 548-582): skipped
entirely when the handle's domain is in `ids.ATPROTO_HANDLE_DOMAINS`;
otherwise the GCP DNS API calls run and may raise, and on success one TXT
record is installed. -/
def dnsStep (env : CreateForEnv) (w : AtWorld) : Except AtWorld AtWorld :=
  if env.handleReserved then .ok w
  else match env.setDns with
    | .error _ => .error w
    | .ok _ => .ok { w with dnsWrites := w.dnsWrites + 1 }

/-- The new-DID path of `ATProto.create_for` (src/atproto.py lines 472-546).
`memCopies` is the in-memory `user.copies` value at entry (the tombstoned
branch has already set it to `[]`; otherwise it is the persisted value), which
is only written back to the datastore by the final `user.put()`. On an
exception the world reached so far is returned as the `.error` payload. -/
def newDidPath (env : CreateForEnv) (w : AtWorld) (memCopies : List Target) :
    Except AtWorld AtWorld :=
  -- did.create_plc (line 477): generates the DID and submits a PLC operation
  withPlc env.createPlc w fun did_plc =>
  -- Object.get_or_create for the DID doc (line 480) has no modelled effect
  -- set_dns (line 481): may raise, installs the _atproto TXT record
  andThen (dnsStep env { w with plcOps := w.plcOps + 1 }) fun w1 =>
  -- fetch user profile if needed (lines 484-485)
  andThen (reloadStep env w1) fun w2 =>
  -- Repo.create (lines 488-491)
  if ¬env.repoCreateOk then .error w2
  else
  -- chat declaration + optional pinned post (lines 493-518); the pinned
  -- post's copy goes on the featured Object, not the user
  andThen (pinnedStep env { w2 with repos := (did_plc, none) :: w2.repos }) fun w4 =>
  -- first commit (line 520)
  if ¬env.commit1Ok then .error w4
  else
  -- profile record conversion and second commit (lines 525-541)
  andThen (profileStep env did_plc w4) fun w5 =>
  -- add the copy id only at the end (lines 543-546), then user.put()
  .ok { w5 with userCopies := addCopy memCopies { uri := did_plc, protocol := "atproto" } }

/-- Shallow embedding of `ATProto.create_for` (src/atproto.py lines 434-546).
An `.error` result models a raised exception, carrying the world at the point
of the raise; note `user.put()` only runs at the very end, so `userCopies`
mutations made in memory (the tombstoned branch's wipe) are not persisted on
failure. -/
def create_for (env : CreateForEnv) (w : AtWorld) : Except AtWorld AtWorld :=
  match getCopy w.userCopies "atproto" with
  | some copy_did =>
    -- already bridged (line 451)
    match lookupRepo w.repos copy_did with
    | none => .error w                         -- load_repo raises: repo missing
    | some none => .ok w                       -- already active; noop (line 456)
    | some (some status) =>
      if status = TOMBSTONED then
        -- wipe copies and fall through to a fresh DID (lines 457-463);
        -- user.obj.copies is wiped and put immediately, user.copies only in memory
        newDidPath env { w with userObjCopies := wipeIf w.userHasObj w.userObjCopies } []
      else
        -- deactivated or deleted: reactivate (lines 464-470)
        .ok { w with repos := setRepoActive w.repos copy_did,
                     dnsWrites := w.dnsWrites +
                       reactivateDnsDelta env.handleEndsSuperdomain env.handleReserved }
  | none => newDidPath env w w.userCopies

end ATProto

/-! ## atproto.py: send -/

/-- granary constant `as1.CRUD_VERBS` (the AS1 verbs that wrap an inner
object; spec section 4.5: create/post, update, delete, undo). -/
def CRUD_VERBS : List String := ["post", "update", "delete", "undo"]

/-- Splitting a character list on `/`, with empty segments kept (the
single-separator case of `str.split('/')`). -/
def splitSlash : List Char → List (List Char)
  | [] => [[]]
  | c :: rest =>
    if c = '/' then [] :: splitSlash rest
    else match splitSlash rest with
      | [] => [[c]]
      | g :: gs => (c :: g) :: gs

/-- `arroba.util.parse_at_uri` restricted to canonical
`at://did/collection/rkey` URIs: drops the `at://` scheme and splits the
remaining three path segments. -/
def parseAtUri (uri : String) : String × String × String :=
  match (splitSlash (uri.data.drop 5)).map String.mk with
  | [d, c, r] => (d, c, r)
  | _ => ("", "", "")

/-- A converted ATProto record: the `record` dict abstracted to its `$type`. -/
structure ARecord where
  typ : String
deriving DecidableEq, Repr

/-- A stored base object as `ATProto.send` sees it: key id, `copies`, and
`Object.type` (checked by the stop-following assertion). -/
structure BaseObj where
  id : String
  copies : List Target
  typ : String
deriving DecidableEq, Repr

/-- The activity `Object` passed to `ATProto.send`, abstracted to the fields
the code reads: its own id/copies/type (it is its own base object for
non-CRUD, non-stop-following verbs), `asType` for `as1.object_type(obj.as1)`
(line 675), `verb` for `obj.as1.get('verb')` (line 745; `none` for plain
objects), and the inner object's id and AS1 type. -/
structure SendObj where
  id : String
  copies : List Target
  typ : String
  asType : String
  verb : Option String
  innerId : Option String
  innerType : String
deriving DecidableEq, Repr

/-- Environment of external calls made by `ATProto.send`, in source order:
the PDS-domain test (line 670), the datastore load of the base object
(line 693), the Follower lookup's follow object (lines 705-711), the record
conversion (line 714; `none` models a failed conversion), the actor-key
lookup (line 718), the user's ATProto copy DID (line 726), the DID doc's PDS
test (lines 729-731), the repo load (line 736), `repo.status` (line 762),
the translated base id `atp_base_id` (lines 747-749), the undo-block subject
(line 779), the `create_report` and `send_chat` results, whether
`storage.commit` succeeds (raising `ValueError`/`InactiveRepo` otherwise),
and the fresh `next_tid()` rkey. -/
structure SendEnv where
  pdsUrlIsOurs : Bool
  baseObjLoaded : Option BaseObj
  followerFollow : Option BaseObj
  convert : Option ARecord
  fromKeyFound : Bool
  userDid : Option String
  didDocPdsOurs : Bool
  repoFound : Bool
  repoStatus : Option String
  atpBaseId : String
  blockedDid : Option String
  createReportOk : Bool
  dmRecipient : Option String
  sendChatOk : Bool
  commitOk : Bool
  nextTid : String
deriving DecidableEq, Repr

/-- The commit action of `arroba.storage.Action`. -/
inductive WAction where
  | create
  | update
  | delete
deriving DecidableEq, Repr

/-- What a call to `ATProto.send` did: its boolean result, the base object's
`copies` when it was determined and after the call, whether the final
`write()` commit (lines 846-853) was attempted and with which action, whether
the repo was deactivated (delete of actor, lines 750-754), and whether the
undo-block multi-delete commit ran (line 795). -/
structure SendOutcome where
  result : Bool
  copiesBefore : List Target
  copiesAfter : List Target
  commitAttempted : Bool
  action : Option WAction
  deactivated : Bool
  blockDeletes : Bool
deriving DecidableEq, Repr

/-- An outcome that only returns a boolean, leaving the base copies alone. -/
def noEffect (copies : List Target) (result : Bool) : SendOutcome :=
  { result := result, copiesBefore := copies, copiesAfter := copies,
    commitAttempted := false, action := none, deactivated := false,
    blockDeletes := false }

/-- The commit action for the modifying verbs (src/atproto.py lines 827-832):
`update` and otherwise `delete` (for both delete and undo). -/
def actionFor (verb : Option String) : WAction :=
  if verb = some "update" then .update else .delete

/-- The record key for a create (src/atproto.py line 836): `self` for
profiles, else a fresh monotonic TID. -/
def rkeyFor (typeStr nextTid : String) : String :=
  if typeStr = "app.bsky.actor.profile" then "self" else nextTid

namespace ATProto

/-- The record-commit tail of `ATProto.send` (src/atproto.py lines 802-864):
the update/delete/undo guard against the stored copy, the action choice, the
commit guarded by `except (ValueError, InactiveRepo)`, and the copy update on
non-delete success. `verb` is the (possibly reassigned, line 773) verb and
`base` the determined base object. Returns `none` only in the unreachable
create-with-no-base case. -/
def sendCommit (env : SendEnv) (did : String) (recordType : Option String)
    (verb : Option String) (base : Option BaseObj) : Option SendOutcome :=
  if verb = some "update" ∨ verb = some "delete" ∨ verb = some "undo" then
    -- only modify objects we bridged (lines 813-825)
    match base with
    | none => some (noEffect [] false)
    | some b =>
      match getCopy b.copies "atproto" with
      | none => some (noEffect b.copies false)
      | some copy =>
        if (parseAtUri copy).1 ≠ did
            ∨ (recordType.any fun t => (parseAtUri copy).2.1 != t) = true then
          some (noEffect b.copies false)
        else if ¬env.commitOk then
          some { result := false, copiesBefore := b.copies,
                 copiesAfter := b.copies, commitAttempted := true,
                 action := some (actionFor verb), deactivated := false,
                 blockDeletes := false }
        else if actionFor verb = .delete then
          some { result := true, copiesBefore := b.copies,
                 copiesAfter := b.copies, commitAttempted := true,
                 action := some (actionFor verb), deactivated := false,
                 blockDeletes := false }
        else
          -- update success: re-add the copy at its reconstructed at:// uri
          some { result := true, copiesBefore := b.copies,
                 copiesAfter := addCopy b.copies
                   { uri := "at://" ++ did ++ "/" ++ recordType.getD "" ++ "/"
                              ++ (parseAtUri copy).2.2,
                     protocol := "atproto" },
                 commitAttempted := true, action := some (actionFor verb),
                 deactivated := false, blockDeletes := false }
  else
    -- create (lines 833-836): rkey self for profiles, else a fresh TID
    match base with
    | none => none
    | some b =>
      if ¬env.commitOk then
        some { result := false, copiesBefore := b.copies, copiesAfter := b.copies,
               commitAttempted := true, action := some .create,
               deactivated := false, blockDeletes := false }
      else
        some { result := true, copiesBefore := b.copies,
               copiesAfter := addCopy b.copies
                 { uri := "at://" ++ did ++ "/" ++ recordType.getD "" ++ "/"
                            ++ rkeyFor (recordType.getD "") env.nextTid,
                   protocol := "atproto" },
               commitAttempted := true, action := some .create,
               deactivated := false, blockDeletes := false }

/-- The determined base object's copies (empty when there is no base). -/
def baseCopiesOf (base : Option BaseObj) : List Target :=
  (base.map (·.copies)).getD []

/-- The base-object determination of `ATProto.send` (src/atproto.py lines
674-711): for CRUD verbs the inner object is loaded (an absent id aborts with
False; for non-delete/undo verbs a missing base becomes a fresh Object, and an
undo of a block with no id gets an id-less fresh Object); `stop-following`
looks up the prior Follower's follow object, aborting with False if there is
none; any other object is its own base. -/
def determineBase (env : SendEnv) (obj : SendObj) :
    Except SendOutcome (Option BaseObj) :=
  if obj.asType ∈ CRUD_VERBS then
    if obj.asType = "undo" ∧ obj.innerType = "block" ∧ obj.innerId = none then
      .ok (some { id := "", copies := [], typ := obj.innerType })
    else match obj.innerId with
      | none => .error (noEffect obj.copies false)   -- no id (lines 690-692)
      | some bid =>
        if obj.asType ≠ "delete" ∧ obj.asType ≠ "undo" then
          -- a missing base becomes a fresh Object (lines 695-698)
          .ok (some (env.baseObjLoaded.getD
                { id := bid, copies := [], typ := obj.innerType }))
        else .ok env.baseObjLoaded
  else if obj.asType = "stop-following" then
    match env.followerFollow with
    | none => .error (noEffect obj.copies false)     -- no Follower (lines 707-709)
    | some f => .ok (some f)
  else .ok (some { id := obj.id, copies := obj.copies, typ := obj.typ })

/-- The tail of `ATProto.send` after the base object has been determined
(src/atproto.py lines 713-864): record conversion (env.convert), user lookup,
the non-commit verb routes, and the final commit. -/
def sendAfterBase (env : SendEnv) (obj : SendObj) (base : Option BaseObj) :
    Option SendOutcome :=
  -- find and load the user (lines 716-727)
  if ¬env.fromKeyFound then some (noEffect (baseCopiesOf base) false)
  else match env.userDid with
  | none => none                       -- assert did (line 727)
  | some did =>
  if ¬env.didDocPdsOurs then some (noEffect (baseCopiesOf base) false)   -- lines 729-733
  else if ¬env.repoFound then none     -- assert repo (line 737)
  else
  -- delete of the actor deactivates the repo (lines 745-754)
  if obj.verb = some "delete" ∧ env.atpBaseId = did then
    some { result := true, copiesBefore := baseCopiesOf base,
           copiesAfter := baseCopiesOf base,
           commitAttempted := false, action := none, deactivated := true,
           blockDeletes := false }
  -- failed conversions abandon the send except for delete/undo (lines 756-758)
  else if env.convert = none ∧ obj.verb ≠ some "delete" ∧ obj.verb ≠ some "undo" then
    some (noEffect (baseCopiesOf base) false)
  -- inactive repos give up (lines 762-764)
  else if env.repoStatus ≠ none then some (noEffect (baseCopiesOf base) false)
  -- flag becomes createReport (lines 766-768)
  else if obj.verb = some "flag" then
    some (noEffect (baseCopiesOf base) env.createReportOk)
  -- stop-following becomes a delete of the prior follow (lines 770-773)
  else if obj.verb = some "stop-following" then
    match base with
    | none => none                     -- assert base_obj (line 772)
    | some b =>
      if b.typ ≠ "follow" then none    -- assert type follow (line 772)
      else sendCommit env did (env.convert.map (·.typ)) (some "delete") base
  -- undo of a block deletes all matching block records (lines 775-796)
  else if obj.verb = some "undo" ∧ obj.innerType = "block" then
    match env.blockedDid with
    | none => some (noEffect (baseCopiesOf base) false)      -- lines 780-782
    | some _ =>
      if ¬env.commitOk then none       -- unguarded commit (line 795)
      else
        some { result := true, copiesBefore := baseCopiesOf base,
               copiesAfter := baseCopiesOf base,
               commitAttempted := false, action := none, deactivated := false,
               blockDeletes := true }
  -- DMs go to the chat service (lines 798-800)
  else match env.dmRecipient with
  | some recip =>
    if ¬recip.startsWith "did:" then none           -- assert (line 799)
    else some (noEffect (baseCopiesOf base) env.sendChatOk)
  | none =>
    -- write the commit (lines 802-864)
    sendCommit env did (env.convert.map (·.typ)) obj.verb base

/-- Shallow embedding of `ATProto.send` (src/atproto.py lines 655-864),
returning what the call did, or `none` where the Python code lets an
exception propagate (failed assertions; the unguarded undo-block commit). -/
def send (env : SendEnv) (obj : SendObj) : Option SendOutcome :=
  -- target PDS must be ours (lines 670-672)
  if ¬env.pdsUrlIsOurs then some (noEffect obj.copies false)
  else
  -- determine the base object (lines 674-711), then convert and route
  match determineBase env obj with
  | .error out => some out
  | .ok base => sendAfterBase env obj base

end ATProto

/-- The state-conflict condition of the claim, over the loaded base object:
the base object is missing, has no ATProto copy, or its copy uri parses to a
different repo DID than the sending user's, or to a different collection than
the converted record's type (src/atproto.py lines 813-825). -/
def stateConflict (env : SendEnv) (did : String) : Bool :=
  match env.baseObjLoaded with
  | none => true
  | some b =>
    match getCopy b.copies "atproto" with
    | none => true
    | some copy =>
      ((parseAtUri copy).1 != did)
        || (env.convert.map (·.typ)).any fun t => (parseAtUri copy).2.1 != t

/-- The guard of the update/delete/undo commit (src/atproto.py lines 813-825)
fails for this base object: whenever the base exists and has an ATProto copy,
that copy parses to a different repo DID or (when a record was converted) a
different collection. A missing base or copy satisfies this vacuously. -/
def guardFails (recordType : Option String) (did : String)
    (base : Option BaseObj) : Prop :=
  ∀ b, base = some b → ∀ copy, getCopy b.copies "atproto" = some copy →
    (parseAtUri copy).1 ≠ did
      ∨ (recordType.any fun t => (parseAtUri copy).2.1 != t) = true

/-! ## Concrete fixtures used by witnesses and counterexamples -/

/-- Granary oracles for concrete runs: signatures verify, and URI derivation
succeeds (bech32 encoding abstracted to prefixing). -/
def gOk : NostrOracles :=
  { verify := fun _ => true,
    uriFor := fun e => some ("nostr:nevent" ++ e.id),
    idToUri := fun prf k => some ("nostr:" ++ prf ++ k) }

/-- A note authored by bridged pubkey `aa` that mentions bridged pubkey `bb`:
a loopback event carrying a `p` tag for a bridged user. -/
def evLoopMention : NostrEvent :=
  { kind := some 1, pubkey := "aa", id := "e1", sig := "s1",
    tags := [["p", "bb"]], created_at := 100 }

/-- A note authored by bridged pubkey `aa` with no mentions. -/
def evLoopPlain : NostrEvent :=
  { kind := some 1, pubkey := "aa", id := "e2", sig := "s2",
    tags := [], created_at := 101 }

/-- A note authored by native Nostr pubkey `aa`. -/
def evNative : NostrEvent :=
  { kind := some 1, pubkey := "aa", id := "e3", sig := "s3",
    tags := [], created_at := 102 }

/-- An event with `created_at = 678`, received just before a CLOSED frame. -/
def ev678 : NostrEvent :=
  { kind := some 1, pubkey := "bb", id := "e4", sig := "s4",
    tags := [["p", "aa"]], created_at := 678 }

/-- A publish environment in which the relay connection stays up. -/
def envPub : NostrSendEnv := { eventUri := "nostr:note1", connectionClosedOk := false }

/-- Copies of an object that already has an older Nostr copy. -/
def demoCopies : List Target :=
  [ { uri := "at://did:plc:me/app.bsky.feed.post/3k", protocol := "atproto" },
    { uri := "nostr:noteold", protocol := "nostr" } ]

/-- A web user bridged into Nostr, for the NIP-05 endpoint. -/
def aliceNip : NipUser :=
  { protoLabel := "web", handle := some "alice", handle_as_domain := some "alice.com",
    id := "alice.com", enabledNostr := true,
    copies := [ { uri := "nostr:npubaa", protocol := "nostr" } ] }

/-- A user not yet bridged into ATProto (a Nostr copy only, no repo). -/
def wFreshUser : AtWorld :=
  { userCopies := [ { uri := "nostr:npubbb", protocol := "nostr" } ],
    userObjCopies := [], userHasObj := true, userObjAs1 := true,
    repos := [], plcOps := 0, dnsWrites := 0 }

/-- An environment for `create_for` in which every external step succeeds. -/
def envCreateOk : CreateForEnv :=
  { handleEndsSuperdomain := false, handleReserved := false,
    createPlc := .ok "did:plc:new", setDns := .ok (),
    reloadProfile := .ok true,
    repoCreateOk := true, pinnedFetch := .ok false, commit1Ok := true,
    profileConvert := some (), commit2Ok := true }

/-- The same environment with the DNS TXT record install raising. -/
def envDnsFail : CreateForEnv :=
  { envCreateOk with setDns := .error () }

/-- The world `create_for envDnsFail wFreshUser` has reached when `set_dns`
raises: the PLC op was already submitted, but no DNS record was installed,
no repo created, and the user's copies are untouched. -/
def wDnsFailed : AtWorld :=
  { userCopies := [ { uri := "nostr:npubbb", protocol := "nostr" } ],
    userObjCopies := [], userHasObj := true, userObjAs1 := true,
    repos := [], plcOps := 1, dnsWrites := 0 }

/-- The world after a fully successful `create_for envCreateOk wFreshUser`. -/
def wCreated : AtWorld :=
  { userCopies := [ { uri := "nostr:npubbb", protocol := "nostr" },
                    { uri := "did:plc:new", protocol := "atproto" } ],
    userObjCopies := [ { uri := "at://did:plc:new/app.bsky.actor.profile/self",
                         protocol := "atproto" } ],
    userHasObj := true, userObjAs1 := true,
    repos := [("did:plc:new", none)], plcOps := 1, dnsWrites := 1 }

/-- A send environment with every external check passing, used as a base for
the concrete `ATProto.send` runs below. -/
def envSendBase : SendEnv :=
  { pdsUrlIsOurs := true, baseObjLoaded := none, followerFollow := none,
    convert := none, fromKeyFound := true, userDid := some "did:plc:me",
    didDocPdsOurs := true, repoFound := true, repoStatus := none,
    atpBaseId := "did:plc:other", blockedDid := none, createReportOk := false,
    dmRecipient := none, sendChatOk := false, commitOk := true, nextTid := "3kt" }

/-- A stored note whose ATProto copy lives in the sending user's repo. -/
def basePostMine : BaseObj :=
  { id := "fake:post",
    copies := [ { uri := "at://did:plc:me/app.bsky.feed.post/123",
                  protocol := "atproto" } ],
    typ := "note" }

/-- A stored note whose ATProto copy lives in a different repo. -/
def basePostOther : BaseObj :=
  { id := "fake:post",
    copies := [ { uri := "at://did:plc:other/app.bsky.feed.post/1",
                  protocol := "atproto" } ],
    typ := "note" }

/-- A delete activity for the stored note. -/
def objDel : SendObj :=
  { id := "fake:del", copies := [], typ := "delete", asType := "delete",
    verb := some "delete", innerId := some "fake:post", innerType := "note" }

/-- The environment for deleting the stored note's bridged record. -/
def envDel : SendEnv :=
  { envSendBase with baseObjLoaded := some basePostMine }

/-- A delete activity whose object is the sending user themself. -/
def objActorDel : SendObj :=
  { id := "fake:delacct", copies := [], typ := "delete", asType := "delete",
    verb := some "delete", innerId := some "fake:alice", innerType := "person" }

/-- The environment for the actor delete: the translated base id is the
user's own DID and no base object is stored. -/
def envActorDel : SendEnv :=
  { envSendBase with atpBaseId := "did:plc:me" }

/-- A post (create) activity for a new note. -/
def objNote : SendObj :=
  { id := "fake:note", copies := [], typ := "note", asType := "post",
    verb := some "post", innerId := some "fake:note", innerType := "note" }

/-- The environment for creating the note's bridged record. -/
def envCreate : SendEnv :=
  { envSendBase with convert := some { typ := "app.bsky.feed.post" } }

/-- The outcome of `ATProto.send envCreate objNote`: a create commit that
adds the fresh record's at:// uri to the base object's copies. -/
def oCreate : SendOutcome :=
  { result := true, copiesBefore := [],
    copiesAfter := [ { uri := "at://did:plc:me/app.bsky.feed.post/3kt",
                       protocol := "atproto" } ],
    commitAttempted := true, action := some .create, deactivated := false,
    blockDeletes := false }

/-- An update activity for the stored note. -/
def objUpd : SendObj :=
  { id := "fake:upd", copies := [], typ := "update", asType := "update",
    verb := some "update", innerId := some "fake:post", innerType := "note" }

/-- The environment for the conflicting update: the stored copy is in a
different repo than the sending user's. -/
def envConflict : SendEnv :=
  { envSendBase with baseObjLoaded := some basePostOther,
                     convert := some { typ := "app.bsky.feed.post" } }

/-! ## Theorems -/

/-- Elements surviving the non-nostr filter never have protocol `nostr`. -/
theorem countP_nostr_of_filter (cs : List Target) :
    ((cs.filter fun c => c.protocol ≠ "nostr").countP
      fun c => c.protocol == "nostr") = 0 := by
  rw [List.countP_eq_zero]
  intro a ha
  have h2 := (List.mem_filter.mp ha).2
  simp only [decide_not, Bool.not_eq_true'] at h2 ⊢
  simpa using h2

/-- A target with protocol `nostr` is not in the non-nostr-filtered list. -/
theorem nostr_target_not_mem_filter (cs : List Target) (t : Target)
    (ht : t.protocol = "nostr") :
    t ∉ cs.filter fun c => c.protocol ≠ "nostr" := by
  intro hmem
  have h2 := (List.mem_filter.mp hmem).2
  rw [ht] at h2
  simp at h2

/-- C1: an event whose pubkey is in `bridged_pubkeys` that also carries a `p`
tag mentioning a bridged pubkey DOES get a receive task enqueued by
`nostr_hub.handle`: the relevance filter only tests `pubkey ∈ nostr_pubkeys`
or `mentions ∩ bridged_pubkeys ≠ ∅`, and never suppresses bridged authors.
This refutes the claim as stated at a concrete input. -/
theorem C1_counterexample :
    evLoopMention.pubkey ∈ ["aa", "bb"]
      ∧ (handle gOk [] ["aa", "bb"] evLoopMention).isSome = true := by
  constructor
  · decide
  · rfl

/-- C1 (amended): loopback suppression holds only for events that mention no
bridged pubkey: if the event's pubkey is not a native bridged Nostr pubkey
(in particular, a pubkey in `bridged_pubkeys` only, as for users bridged into
Nostr by the bridge itself) and none of its `p`-tag mentions is in
`bridged_pubkeys`, then `nostr_hub.handle` enqueues no receive task. -/
theorem C1_theorem (g : NostrOracles) (ns bs : List String) (e : NostrEvent)
    (_hb : e.pubkey ∈ bs) (hn : e.pubkey ∉ ns)
    (hm : ∀ m ∈ pMentions e.tags, m ∉ bs) :
    handle g ns bs e = none := by
  unfold handle
  split
  · rfl
  · split
    · rfl
    · rw [if_pos]
      intro hcond
      rcases hcond with hmem | hany
      · exact hn hmem
      · rcases List.any_eq_true.mp hany with ⟨m, hmmem, hmbs⟩
        exact hm m hmmem (by simpa using hmbs)

/-- C1 witness: a loopback event with no mentions at all is dropped. -/
theorem C1_witness : handle gOk [] ["aa"] evLoopPlain = none :=
  C1_theorem gOk [] ["aa"] evLoopPlain (by decide) (by decide) (by decide)

/-- C5: whenever `nostr_hub.handle` enqueues a receive task, the event carried
a kind, pubkey, id and signature, the id/Schnorr-signature check `verify`
succeeded, and the task's `authed_as` is the `nostr:npub` URI derived from the
event's pubkey. -/
theorem C5_theorem (g : NostrOracles) (ns bs : List String) (e : NostrEvent)
    (t : ReceiveTask) (h : handle g ns bs e = some t) :
    (e.kind.isSome ∧ e.pubkey ≠ "" ∧ e.id ≠ "" ∧ e.sig ≠ "")
      ∧ g.verify e = true
      ∧ g.idToUri "npub" e.pubkey = some t.authed_as := by
  unfold handle at h
  split at h
  · cases h
  next hwf =>
    refine ⟨by simpa using not_not.mp hwf, ?_⟩
    split at h
    · cases h
    · split at h
      · cases h
      · split at h
        · cases h
        next hver =>
          refine ⟨by simpa using not_not.mp hver, ?_⟩
          split at h
          next obj_id npub_uri heq1 heq2 =>
            cases h
            exact heq2
          next =>
            cases h

/-- C5 witness: a post from a native bridged Nostr user is enqueued with
`authed_as` equal to its npub URI. -/
theorem C5_witness :
    gOk.verify evNative = true
      ∧ gOk.idToUri "npub" evNative.pubkey = some "nostr:npubaa" :=
  let h := C5_theorem gOk ["aa"] [] evNative
    { id := "nostr:nevente3", source_protocol := "nostr",
      authed_as := "nostr:npubaa", nostr := evNative, delayed := false }
    (by rfl)
  ⟨h.2.1, h.2.2⟩

/-- C8: every REQ the subscriber sends holds exactly two filters: one matching
the supported kinds that mention a bridged pubkey (sorted), and one matching
events authored by a native bridged Nostr pubkey (sorted) over the supported
kinds with reaction (kind 7) removed. -/
theorem C8_theorem (ks : List Int) (bs ns : List String) :
    buildReq ks bs ns =
      [ { p := some (bs.mergeSort (· ≤ ·)), authors := none, kinds := ks,
          since := none },
        { p := none, authors := some (ns.mergeSort (· ≤ ·)),
          kinds := AUTHOR_FILTER_KINDS ks, since := none } ]
      ∧ ∀ k : Int, k ∈ AUTHOR_FILTER_KINDS ks ↔ (k ∈ ks ∧ k ≠ KIND_REACTION) := by
  refine ⟨rfl, fun k => ?_⟩
  simp [AUTHOR_FILTER_KINDS, List.mem_filter]

/-- C7: after receiving an event with `created_at = 678` and then a CLOSED
frame, the subscriber's next REQ is identical to its first: no `since` cursor
appears in any filter (and no Relay entity exists in src to persist one),
contradicting the claim that reconnection resumes from the last event's
`created_at`. -/
theorem C7_theorem :
    reqsSent [1, 5, 7] ["aa"] ["bb"] [.event ev678, .closed] =
        [buildReq [1, 5, 7] ["aa"] ["bb"], buildReq [1, 5, 7] ["aa"] ["bb"]]
      ∧ ∀ fs ∈ reqsSent [1, 5, 7] ["aa"] ["bb"] [.event ev678, .closed],
          ∀ f ∈ fs, f.since = none := by
  constructor
  · rfl
  · decide

/-- C10: a successful `Nostr.send` first removes every existing `nostr` copy
and then adds the freshly published event's uri, so afterwards the object's
copies hold exactly one `nostr` entry, the new one. -/
theorem C10_theorem (env : NostrSendEnv) (cs res : List Target)
    (h : Nostr.send env cs = (true, res)) :
    res = addCopy (cs.filter fun c => c.protocol ≠ "nostr")
                  { uri := env.eventUri, protocol := "nostr" }
      ∧ (res.countP fun c => c.protocol == "nostr") = 1 := by
  unfold Nostr.send at h
  split at h
  · cases h
  · injection h with h1 h2
    have hres : res = addCopy (cs.filter fun c => c.protocol ≠ "nostr")
        { uri := env.eventUri, protocol := "nostr" } := h2.symm
    refine ⟨hres, ?_⟩
    rw [hres, addCopy,
        if_neg (nostr_target_not_mem_filter cs { uri := env.eventUri, protocol := "nostr" } rfl)]
    rw [List.countP_append, countP_nostr_of_filter]
    rfl

/-- C10 witness: republishing an object that already has a Nostr copy leaves
exactly one `nostr` entry, the new event's uri. -/
theorem C10_witness :
    Nostr.send envPub demoCopies =
      (true, [ { uri := "at://did:plc:me/app.bsky.feed.post/3k", protocol := "atproto" },
               { uri := "nostr:note1", protocol := "nostr" } ])
      ∧ ((Nostr.send envPub demoCopies).2.countP fun c => c.protocol == "nostr") = 1 :=
  ⟨by decide, (C10_theorem envPub demoCopies (Nostr.send envPub demoCopies).2 rfl).2⟩

/-- C9: the NIP-05 endpoint serves a name-to-hex-pubkey mapping exactly when
the requesting protocol is a non-Nostr protocol with a user (unique match
assumed, as for an indexed handle) whose handle, handle-as-domain or key id
equals the name, that user is enabled for Nostr and has a Nostr copy; a
request with no resolvable protocol is a 404, and native Nostr users are
never served (a `nostr` request is always a 404). -/
theorem C9_theorem (uriToId : String → String) (proto : String)
    (users : List NipUser) (name : String)
    (huniq : ∀ u ∈ users, ∀ v ∈ users, nipMatches proto name u = true →
      nipMatches proto name v = true → u = v) :
    ((nip_05 uriToId (some proto) users name).isSome = true ↔
      (proto ≠ "nostr" ∧ ∃ u npub, u ∈ users ∧ nipMatches proto name u = true
        ∧ u.enabledNostr = true ∧ getCopy u.copies "nostr" = some npub))
      ∧ (∀ u npub, proto ≠ "nostr" → u ∈ users → nipMatches proto name u = true →
          u.enabledNostr = true → getCopy u.copies "nostr" = some npub →
          nip_05 uriToId (some proto) users name = some (name, uriToId npub))
      ∧ nip_05 uriToId none users name = none := by
  refine ⟨?_, ?_, rfl⟩
  · by_cases hp : proto = "nostr"
    · subst hp
      simp [nip_05]
    · simp only [nip_05]
      rw [if_neg hp]
      split
      next hfind =>
        simp only [Option.isSome_none, Bool.false_eq_true, false_iff]
        rintro ⟨-, u, npub, hu, hmat, -, -⟩
        exact (List.find?_eq_none.mp hfind u hu) hmat
      next u hfind =>
        have humem := List.mem_of_find?_eq_some hfind
        have humat := List.find?_some hfind
        constructor
        · intro hsome
          refine ⟨hp, u, ?_⟩
          by_cases hen : u.enabledNostr = true
          · rw [if_pos hen] at hsome
            split at hsome
            next npub hcopy => exact ⟨npub, humem, humat, hen, hcopy⟩
            next hcopy => cases hsome
          · rw [if_neg hen] at hsome
            cases hsome
        · rintro ⟨-, v, npub, hv, hmat, hen, hcopy⟩
          have hvu : v = u := huniq v hv u humem hmat humat
          subst hvu
          rw [if_pos hen, hcopy]
          rfl
  · intro u npub hp hu hmat hen hcopy
    simp only [nip_05]
    rw [if_neg hp]
    split
    next hfind => exact absurd hmat (List.find?_eq_none.mp hfind u hu)
    next v hfind =>
      have hvu : v = u := huniq v (List.mem_of_find?_eq_some hfind) u hu
        (List.find?_some hfind) hmat
      subst hvu
      rw [if_pos hen, hcopy]

/-- C9 witness: a bridged web user with a Nostr copy is served, with the hex
pubkey derived from its npub uri. -/
theorem C9_witness :
    nip_05 (fun s => s.drop 6) (some "web") [aliceNip] "alice" =
      some ("alice", "npubaa") :=
  (C9_theorem (fun s => s.drop 6) "web" [aliceNip] "alice"
      (by decide)).2.1 aliceNip "nostr:npubaa" (by decide) (by decide)
    (by decide) (by decide) (by decide)

/-- `find?` skips a prefix in which nothing matches. -/
theorem find?_append_none {α} (p : α → Bool) (l₁ l₂ : List α)
    (h : l₁.find? p = none) : (l₁ ++ l₂).find? p = l₂.find? p := by
  induction l₁ with
  | nil => rfl
  | cons a l ih =>
    by_cases hpa : p a = true
    · rw [List.find?_cons_of_pos _ hpa] at h
      cases h
    · rw [List.find?_cons_of_neg _ (by simpa using hpa)] at h
      rw [List.cons_append, List.find?_cons_of_neg _ (by simpa using hpa)]
      exact ih h

/-- Adding a copy for a protocol that had none makes it the found copy. -/
theorem getCopy_addCopy_self (cs : List Target) (t : Target)
    (h : getCopy cs t.protocol = none) :
    getCopy (addCopy cs t) t.protocol = some t.uri := by
  unfold getCopy at h ⊢
  have hfn : cs.find? (fun c => c.protocol == t.protocol) = none :=
    Option.map_eq_none'.mp h
  have hnm : t ∉ cs := by
    intro hm
    have := List.find?_eq_none.mp hfn t hm
    simp at this
  unfold addCopy
  rw [if_neg hnm, find?_append_none _ _ _ hfn]
  simp [List.find?]

/-- A repo just stored for a DID is what `load_repo` finds for it. -/
theorem lookupRepo_cons_self (d : String) (s : Option String)
    (rest : List (String × Option String)) :
    lookupRepo ((d, s) :: rest) d = some s := by
  simp [lookupRepo, List.find?_cons_of_pos]

/-- `profileStep` never touches the user's own copies, and on success leaves
the stored repos alone as well. -/
theorem profileStep_shape (env : CreateForEnv) (d : String) (w w' : AtWorld) :
    (ATProto.profileStep env d w = .error w' → w'.userCopies = w.userCopies)
      ∧ (ATProto.profileStep env d w = .ok w' →
          w'.userCopies = w.userCopies ∧ w'.repos = w.repos) := by
  unfold ATProto.profileStep
  constructor
  · intro h
    split at h
    · split at h
      · cases h; rfl
      · split at h
        · cases h; rfl
        · cases h
    · cases h
  · intro h
    split at h
    · split at h
      · cases h
      · split at h
        · cases h
        · cases h; exact ⟨rfl, rfl⟩
    · cases h; exact ⟨rfl, rfl⟩

/-- `reloadStep` never touches the user's copies or the stored repos. -/
theorem reloadStep_shape (env : CreateForEnv) (w w' : AtWorld) :
    (ATProto.reloadStep env w = .error w' → w'.userCopies = w.userCopies)
      ∧ (ATProto.reloadStep env w = .ok w' →
          w'.userCopies = w.userCopies ∧ w'.repos = w.repos) := by
  unfold ATProto.reloadStep
  constructor
  · intro h
    split at h
    · split at h
      · cases h; rfl
      · cases h
    · cases h
  · intro h
    split at h
    · split at h
      · cases h
      · cases h; exact ⟨rfl, rfl⟩
    · cases h; exact ⟨rfl, rfl⟩

/-- `pinnedStep` returns its input world in every case. -/
theorem pinnedStep_shape (env : CreateForEnv) (w w' : AtWorld) :
    (ATProto.pinnedStep env w = .error w' → w' = w)
      ∧ (ATProto.pinnedStep env w = .ok w' → w' = w) := by
  unfold ATProto.pinnedStep
  constructor
  · intro h
    split at h
    · split at h
      · cases h; rfl
      · cases h
    · cases h
  · intro h
    split at h
    · split at h
      · cases h
      · cases h; rfl
    · cases h; rfl

/-- `dnsStep` returns the input world on a raise, and on success changes only
the DNS counter. -/
theorem dnsStep_shape (env : CreateForEnv) (w w' : AtWorld) :
    (ATProto.dnsStep env w = .error w' → w' = w)
      ∧ (ATProto.dnsStep env w = .ok w' →
          w'.userCopies = w.userCopies ∧ w'.repos = w.repos) := by
  unfold ATProto.dnsStep
  constructor
  · intro h
    split at h
    · cases h
    · split at h
      · cases h; rfl
      · cases h
  · intro h
    split at h
    · cases h; exact ⟨rfl, rfl⟩
    · split at h
      · cases h
      · cases h; exact ⟨rfl, rfl⟩

/-- Inversion for `andThen` landing in an exception. -/
theorem andThen_error_inv (x : Except AtWorld AtWorld)
    (f : AtWorld → Except AtWorld AtWorld) (w' : AtWorld)
    (h : andThen x f = .error w') :
    x = .error w' ∨ ∃ w2, x = .ok w2 ∧ f w2 = .error w' := by
  cases x with
  | error we =>
    left
    simpa only [andThen] using h
  | ok w2 =>
    right
    exact ⟨w2, rfl, by simpa only [andThen] using h⟩

/-- Inversion for `andThen` succeeding. -/
theorem andThen_ok_inv (x : Except AtWorld AtWorld)
    (f : AtWorld → Except AtWorld AtWorld) (w' : AtWorld)
    (h : andThen x f = .ok w') :
    ∃ w2, x = .ok w2 ∧ f w2 = .ok w' := by
  cases x with
  | error we =>
    simp only [andThen] at h
    cases h
  | ok w2 => exact ⟨w2, rfl, by simpa only [andThen] using h⟩

/-- Inversion for the `create_plc` step landing in an exception. -/
theorem withPlc_error_inv (cp : Except Unit String) (w : AtWorld)
    (f : String → Except AtWorld AtWorld) (w' : AtWorld)
    (h : withPlc cp w f = .error w') :
    w' = w ∨ ∃ did, cp = .ok did ∧ f did = .error w' := by
  cases cp with
  | error u =>
    left
    have h2 := h
    simp only [withPlc] at h2
    cases h2
    rfl
  | ok did =>
    right
    exact ⟨did, rfl, by simpa only [withPlc] using h⟩

/-- Inversion for the `create_plc` step succeeding. -/
theorem withPlc_ok_inv (cp : Except Unit String) (w : AtWorld)
    (f : String → Except AtWorld AtWorld) (w' : AtWorld)
    (h : withPlc cp w f = .ok w') :
    ∃ did, cp = .ok did ∧ f did = .ok w' := by
  cases cp with
  | error u =>
    simp only [withPlc] at h
    cases h
  | ok did => exact ⟨did, rfl, by simpa only [withPlc] using h⟩

/-- Any exception inside the new-DID path returns before `user.put()`: the
world at the raise still has the caller's `userCopies`. -/
theorem newDidPath_error_userCopies (env : CreateForEnv) (w : AtWorld)
    (mem : List Target) (w' : AtWorld)
    (h : ATProto.newDidPath env w mem = .error w') :
    w'.userCopies = w.userCopies := by
  unfold ATProto.newDidPath at h
  rcases withPlc_error_inv _ _ _ _ h with hw | ⟨did, hdid, h⟩
  · rw [hw]
  · rcases andThen_error_inv _ _ _ h with hde | ⟨w1, hd1, h⟩
    · rw [(dnsStep_shape env _ _).1 hde]
    · have h1 := (dnsStep_shape env _ _).2 hd1
      rcases andThen_error_inv _ _ _ h with hre | ⟨w2, hr2, h⟩
      · have hx := (reloadStep_shape env _ _).1 hre
        rw [hx]
        exact h1.1
      · have h2 := (reloadStep_shape env _ _).2 hr2
        split at h
        · cases h
          exact h2.1.trans h1.1
        · rcases andThen_error_inv _ _ _ h with hpe | ⟨w4, hp4, h⟩
          · rw [(pinnedStep_shape env _ _).1 hpe]
            exact h2.1.trans h1.1
          · have h4 := (pinnedStep_shape env _ _).2 hp4
            split at h
            · cases h
              rw [h4]
              exact h2.1.trans h1.1
            · rcases andThen_error_inv _ _ _ h with hfe | ⟨w5, hf5, h⟩
              · rw [(profileStep_shape env did _ _).1 hfe, h4]
                exact h2.1.trans h1.1
              · cases h

/-- A successful new-DID path ends by adding exactly the new DID's Target to
the in-memory copies and has stored exactly one new, active repo for it. -/
theorem newDidPath_ok_shape (env : CreateForEnv) (w : AtWorld)
    (mem : List Target) (w' : AtWorld)
    (h : ATProto.newDidPath env w mem = .ok w') :
    ∃ did, env.createPlc = .ok did
      ∧ w'.userCopies = addCopy mem { uri := did, protocol := "atproto" }
      ∧ w'.repos = (did, none) :: w.repos := by
  unfold ATProto.newDidPath at h
  rcases withPlc_ok_inv _ _ _ _ h with ⟨did, hdid, h⟩
  rcases andThen_ok_inv _ _ _ h with ⟨w1, hd1, h⟩
  have h1 := (dnsStep_shape env _ _).2 hd1
  rcases andThen_ok_inv _ _ _ h with ⟨w2, hr2, h⟩
  have h2 := (reloadStep_shape env _ _).2 hr2
  split at h
  · cases h
  · rcases andThen_ok_inv _ _ _ h with ⟨w4, hp4, h⟩
    have h4 := (pinnedStep_shape env _ _).2 hp4
    split at h
    · cases h
    · rcases andThen_ok_inv _ _ _ h with ⟨w5, hf5, h⟩
      have h5 := (profileStep_shape env did _ _).2 hf5
      cases h
      refine ⟨did, hdid, rfl, ?_⟩
      rw [h5.2, h4]
      show (did, none) :: w2.repos = (did, none) :: w.repos
      rw [h2.2, h1.2]

/-- A user whose shadow repo exists and is active makes `create_for` a
complete noop. -/
theorem create_for_active_noop (env : CreateForEnv) (w : AtWorld) (d : String)
    (hcopy : getCopy w.userCopies "atproto" = some d)
    (hrepo : lookupRepo w.repos d = some none) :
    ATProto.create_for env w = .ok w := by
  unfold ATProto.create_for
  split
  next d' hd' =>
    have hdd : d' = d := by rw [hcopy] at hd'; cases hd'; rfl
    subst hdd
    split
    next hr => rw [hr] at hrepo; cases hrepo
    next hr => rfl
    next s hr =>
      rw [hr] at hrepo
      cases hrepo
  next hd' => rw [hd'] at hcopy; cases hcopy

/-- C3: failure atomicity of shadow creation. If `ATProto.create_for` raises
at any step — PLC DID creation, the DNS TXT record install, the profile
fetch, repo creation, either commit, or the profile conversion — the
persisted `user.copies` is unchanged (the Target is only written by the final
`user.put()`); and when the new-DID path succeeds, `user.copies` gains
exactly the Target for the freshly created DID, added after every earlier
step has succeeded. -/
theorem C3_theorem (env : CreateForEnv) (w : AtWorld) :
    (∀ w', ATProto.create_for env w = .error w' → w'.userCopies = w.userCopies)
      ∧ (∀ w', getCopy w.userCopies "atproto" = none →
          ATProto.create_for env w = .ok w' →
          ∃ did, env.createPlc = .ok did
            ∧ w'.userCopies = addCopy w.userCopies { uri := did, protocol := "atproto" }) := by
  constructor
  · intro w' h
    unfold ATProto.create_for at h
    split at h
    · split at h
      · cases h; rfl
      · cases h
      · split at h
        · exact (newDidPath_error_userCopies env _ _ _ h).trans rfl
        · cases h
    · exact newDidPath_error_userCopies env _ _ _ h
  · intro w' hnone h
    unfold ATProto.create_for at h
    split at h
    next d hd => rw [hnone] at hd; cases hd
    next hd =>
      rcases newDidPath_ok_shape env w _ w' h with ⟨did, hdid, hcop, -⟩
      exact ⟨did, hdid, hcop⟩

/-- C3 witness: with the DNS TXT record install raising, `create_for` on a
fresh user stops right after the PLC op with `user.copies` untouched. -/
theorem C3_witness :
    ATProto.create_for envDnsFail wFreshUser = .error wDnsFailed
      ∧ wDnsFailed.userCopies = wFreshUser.userCopies :=
  ⟨by rfl, (C3_theorem envDnsFail wFreshUser).1 wDnsFailed (by rfl)⟩

/-- C4: `create_for` is idempotent. A user whose shadow repo exists and is
active gets an immediate return with no PLC op, no DNS write, no repo change
and no new copy (the world is unchanged); in particular a second call right
after a successful first call is a complete noop, so `user.copies` is the
same after both calls. -/
theorem C4_theorem :
    (∀ (env : CreateForEnv) (w : AtWorld) (d : String),
        getCopy w.userCopies "atproto" = some d →
        lookupRepo w.repos d = some none →
        ATProto.create_for env w = .ok w)
      ∧ (∀ (env env' : CreateForEnv) (w w' : AtWorld),
          getCopy w.userCopies "atproto" = none →
          ATProto.create_for env w = .ok w' →
          ATProto.create_for env' w' = .ok w') := by
  refine ⟨create_for_active_noop, ?_⟩
  intro env env' w w' hnone h
  unfold ATProto.create_for at h
  split at h
  next d hd => rw [hnone] at hd; cases hd
  next hd =>
    rcases newDidPath_ok_shape env w _ w' h with ⟨did, -, hcop, hrepos⟩
    have hc' : getCopy w'.userCopies "atproto" = some did := by
      rw [hcop]
      exact getCopy_addCopy_self w.userCopies { uri := did, protocol := "atproto" } hnone
    have hr' : lookupRepo w'.repos did = some none := by
      rw [hrepos]
      exact lookupRepo_cons_self did none w.repos
    exact create_for_active_noop env' w' did hc' hr'

/-- The modifying-verb action is update or delete. -/
theorem actionFor_cases (verb : Option String) :
    actionFor verb = .update ∨ actionFor verb = .delete := by
  unfold actionFor
  split
  · exact .inl rfl
  · exact .inr rfl

/-- A failing commit inside `write()` yields False and leaves the base
object's copies alone. -/
theorem sendCommit_commit_fail (env : SendEnv) (did : String)
    (recordType : Option String) (verb : Option String) (base : Option BaseObj)
    (o : SendOutcome) (h : ATProto.sendCommit env did recordType verb base = some o)
    (hca : o.commitAttempted = true) (hck : env.commitOk = false) :
    o.result = false ∧ o.copiesAfter = o.copiesBefore := by
  unfold ATProto.sendCommit at h
  split at h
  · split at h
    · cases h
      simp [noEffect] at hca
    · split at h
      · cases h
        simp [noEffect] at hca
      · split at h
        · cases h
          simp [noEffect] at hca
        · split at h
          · cases h
            exact ⟨rfl, rfl⟩
          next hcond =>
            rw [hck] at hcond
            simp at hcond
  · split at h
    · cases h
    · split at h
      · cases h
        exact ⟨rfl, rfl⟩
      next hcond =>
        rw [hck] at hcond
        simp at hcond

/-- A successful commit either was a delete/undo, leaving copies alone, or a
create/update, adding one `atproto` Target. -/
theorem sendCommit_true_shape (env : SendEnv) (did : String)
    (recordType : Option String) (verb : Option String) (base : Option BaseObj)
    (o : SendOutcome) (h : ATProto.sendCommit env did recordType verb base = some o)
    (hres : o.result = true) :
    (o.action = some .delete ∧ o.copiesAfter = o.copiesBefore)
      ∨ ((o.action = some .update ∨ o.action = some .create)
          ∧ ∃ uri, o.copiesAfter = addCopy o.copiesBefore { uri := uri, protocol := "atproto" }) := by
  unfold ATProto.sendCommit at h
  split at h
  · split at h
    · cases h
      simp [noEffect] at hres
    · split at h
      · cases h
        simp [noEffect] at hres
      · split at h
        · cases h
          simp [noEffect] at hres
        · split at h
          · cases h
            simp at hres
          · split at h
            next hdel =>
              cases h
              exact .inl ⟨by rw [hdel], rfl⟩
            next hdel =>
              cases h
              rcases actionFor_cases verb with hu | hd
              · exact .inr ⟨.inl (by rw [hu]), _, rfl⟩
              · exact absurd hd hdel
  · split at h
    · cases h
    · split at h
      · cases h
        simp at hres
      · cases h
        exact .inr ⟨.inr rfl, _, rfl⟩

/-- `sendCommit` never lets an exception escape on the modifying verbs. -/
theorem sendCommit_ne_none (env : SendEnv) (did : String)
    (recordType : Option String) (v : String) (base : Option BaseObj)
    (hv3 : v = "update" ∨ v = "delete" ∨ v = "undo") :
    ATProto.sendCommit env did recordType (some v) base ≠ none := by
  unfold ATProto.sendCommit
  split
  · split
    · simp
    · split
      · simp
      · split
        · simp
        · split
          · simp
          · split
            · simp
            · simp
  next hcond =>
    exfalso
    rcases hv3 with h | h | h <;> subst h <;> simp at hcond

/-- A base determination that aborts always aborts with a False no-effect
outcome on the activity object's own copies. -/
theorem determineBase_error_shape (env : SendEnv) (obj : SendObj)
    (out : SendOutcome) (h : ATProto.determineBase env obj = .error out) :
    out = noEffect obj.copies false := by
  unfold ATProto.determineBase at h
  split at h
  · split at h
    · cases h
    · split at h
      · cases h
        rfl
      · split at h
        · cases h
        · cases h
  · split at h
    · split at h
      · cases h
        rfl
      · cases h
    · cases h

set_option maxHeartbeats 2000000 in
/-- Every defined result of `ATProto.send` either came from a path that never
touches copies and never commits, or from the final `sendCommit`. -/
theorem send_cases (env : SendEnv) (obj : SendObj) (o : SendOutcome)
    (h : ATProto.send env obj = some o) :
    (o.commitAttempted = false ∧ o.action = none ∧ o.copiesAfter = o.copiesBefore)
      ∨ ∃ did verb base, ATProto.sendCommit env did (env.convert.map (·.typ)) verb base = some o := by
  unfold ATProto.send at h
  split at h
  · cases h
    exact .inl ⟨rfl, rfl, rfl⟩
  · split at h
    · rename_i out heq
      have hout := determineBase_error_shape env obj out heq
      injection h with ho
      subst ho
      rw [hout]
      exact .inl ⟨rfl, rfl, rfl⟩
    · rename_i base heq
      clear heq
      unfold ATProto.sendAfterBase at h
      split at h
      · cases h
        exact .inl ⟨rfl, rfl, rfl⟩
      · split at h
        · cases h
        next did hdid =>
          split at h
          · cases h
            exact .inl ⟨rfl, rfl, rfl⟩
          · split at h
            · cases h
            · split at h
              · cases h
                exact .inl ⟨rfl, rfl, rfl⟩
              · split at h
                · cases h
                  exact .inl ⟨rfl, rfl, rfl⟩
                · split at h
                  · cases h
                    exact .inl ⟨rfl, rfl, rfl⟩
                  · split at h
                    · cases h
                      exact .inl ⟨rfl, rfl, rfl⟩
                    · split at h
                      · split at h
                        · cases h
                        next b =>
                          split at h
                          · cases h
                          · exact .inr ⟨did, some "delete", some b, h⟩
                      · split at h
                        · split at h
                          · cases h
                            exact .inl ⟨rfl, rfl, rfl⟩
                          · split at h
                            · cases h
                            · cases h
                              exact .inl ⟨rfl, rfl, rfl⟩
                        · split at h
                          · split at h
                            · cases h
                            · cases h
                              exact .inl ⟨rfl, rfl, rfl⟩
                          · exact .inr ⟨did, obj.verb, base, h⟩

/-- A true `stateConflict` makes the commit guard fail on the loaded base. -/
theorem stateConflict_guardFails (env : SendEnv) (did : String)
    (h : stateConflict env did = true) :
    guardFails (env.convert.map (·.typ)) did env.baseObjLoaded := by
  intro b hb copy hcopy
  unfold stateConflict at h
  split at h
  next hbo => rw [hbo] at hb; cases hb
  next b' hbo =>
    rw [hbo] at hb
    injection hb with hb
    subst hb
    split at h
    next hc => rw [hc] at hcopy; cases hcopy
    next copy' hc =>
      rw [hc] at hcopy
      injection hcopy with hcopy
      subst hcopy
      simp only [Bool.or_eq_true] at h
      rcases h with h1 | h2
      · exact .inl (by simpa using h1)
      · exact .inr h2

/-- A true `stateConflict` also covers the fresh stand-in base that an update
with a missing stored object gets: its copies are empty. -/
theorem stateConflict_guardFails_getD (env : SendEnv) (did bid it : String)
    (h : stateConflict env did = true) :
    guardFails (env.convert.map (·.typ)) did
      (some (env.baseObjLoaded.getD { id := bid, copies := [], typ := it })) := by
  intro b hb copy hcopy
  cases hbo : env.baseObjLoaded with
  | none =>
    rw [hbo] at hb
    injection hb with hb
    rw [Option.getD_none] at hb
    rw [← hb] at hcopy
    simp [getCopy, List.find?] at hcopy
  | some b' =>
    rw [hbo] at hb
    injection hb with hb
    rw [Option.getD_some] at hb
    subst hb
    exact stateConflict_guardFails env did h b' hbo copy hcopy

/-- Under a failing guard, `sendCommit` on a modifying verb always returns a
False no-effect outcome. -/
theorem sendCommit_conflict_aux (env : SendEnv) (did : String)
    (recordType : Option String) (v : String) (base : Option BaseObj)
    (hv3 : v = "update" ∨ v = "delete" ∨ v = "undo")
    (hg : guardFails recordType did base) (r : Option SendOutcome)
    (h : ATProto.sendCommit env did recordType (some v) base = r) :
    ∃ o, r = some o ∧ o.result = false ∧ o.commitAttempted = false
      ∧ o.blockDeletes = false ∧ o.deactivated = false
      ∧ o.copiesAfter = o.copiesBefore := by
  unfold ATProto.sendCommit at h
  split at h
  · split at h
    · exact ⟨_, h.symm, rfl, rfl, rfl, rfl, rfl⟩
    next b =>
      split at h
      · exact ⟨_, h.symm, rfl, rfl, rfl, rfl, rfl⟩
      next copy hc =>
        split at h
        · exact ⟨_, h.symm, rfl, rfl, rfl, rfl, rfl⟩
        next hcond => exact absurd (hg b rfl copy hc) hcond
  next hcond =>
    exfalso
    rcases hv3 with hv | hv | hv <;> subst hv <;> simp at hcond

set_option maxHeartbeats 2000000 in
/-- Under the claim's hypotheses, `ATProto.send` on a conflicting
update/delete/undo always returns False without committing and without
touching copies. -/
theorem send_conflict_aux (env : SendEnv) (obj : SendObj) (did v : String)
    (hv : obj.verb = some v) (hv3 : v = "update" ∨ v = "delete" ∨ v = "undo")
    (hat : obj.asType = v)
    (hdid : env.userDid = some did) (hrf : env.repoFound = true)
    (hdel : v = "delete" → env.atpBaseId ≠ did)
    (hundo : v = "undo" → obj.innerType ≠ "block")
    (hdm : env.dmRecipient = none)
    (hconf : stateConflict env did = true)
    (r : Option SendOutcome) (h : ATProto.send env obj = r) :
    ∃ o, r = some o ∧ o.result = false ∧ o.commitAttempted = false
      ∧ o.blockDeletes = false ∧ o.deactivated = false
      ∧ o.copiesAfter = o.copiesBefore := by
  unfold ATProto.send at h
  split at h
  · exact ⟨_, h.symm, rfl, rfl, rfl, rfl, rfl⟩
  · split at h
    · rename_i out heq
      have hout := determineBase_error_shape env obj out heq
      subst hout
      exact ⟨_, h.symm, rfl, rfl, rfl, rfl, rfl⟩
    · rename_i base heq
      -- base is determined through the CRUD path for these verbs
      have hcrud : obj.asType ∈ CRUD_VERBS := by
        rcases hv3 with hv1 | hv1 | hv1 <;> rw [hat, hv1] <;> decide
      have hbase : base = env.baseObjLoaded
          ∨ ∃ bid, base = some (env.baseObjLoaded.getD
              { id := bid, copies := [], typ := obj.innerType }) := by
        unfold ATProto.determineBase at heq
        rw [if_pos hcrud] at heq
        split at heq
        next hub =>
          exfalso
          rcases hub with ⟨hu, hbt, -⟩
          rw [hat] at hu
          exact hundo hu hbt
        next hub =>
          split at heq
          · cases heq
          · rename_i bid hbid
            split at heq
            · injection heq with heq
              exact .inr ⟨bid, heq.symm⟩
            · injection heq with heq
              exact .inl heq.symm
      have hguard : guardFails (env.convert.map (·.typ)) did base := by
        rcases hbase with hb | ⟨bid, hb⟩
        · rw [hb]
          exact stateConflict_guardFails env did hconf
        · rw [hb]
          exact stateConflict_guardFails_getD env did bid obj.innerType hconf
      unfold ATProto.sendAfterBase at h
      split at h
      · exact ⟨_, h.symm, rfl, rfl, rfl, rfl, rfl⟩
      · split at h
        next hd => rw [hdid] at hd; cases hd
        next did' hdid' =>
          have hdd : did' = did := by
            rw [hdid] at hdid'
            injection hdid' with hdd2
            exact hdd2.symm
          subst hdd
          split at h
          · exact ⟨_, h.symm, rfl, rfl, rfl, rfl, rfl⟩
          · -- the repoFound assertion branch is closed by hrf, so this split
            -- lands on the actor-delete test
            split at h
            next hcond =>
              exfalso
              rcases hcond with ⟨hvd, hpb⟩
              rw [hv] at hvd
              injection hvd with hveq
              exact hdel hveq hpb
            · split at h
              · exact ⟨_, h.symm, rfl, rfl, rfl, rfl, rfl⟩
              · split at h
                · exact ⟨_, h.symm, rfl, rfl, rfl, rfl, rfl⟩
                · split at h
                  next hcond =>
                    exfalso
                    rw [hv] at hcond
                    injection hcond with hveq
                    rcases hv3 with hv1 | hv1 | hv1 <;>
                      exact absurd (hv1.symm.trans hveq) (by decide)
                  · split at h
                    next hcond =>
                      exfalso
                      rw [hv] at hcond
                      injection hcond with hveq
                      rcases hv3 with hv1 | hv1 | hv1 <;>
                        exact absurd (hv1.symm.trans hveq) (by decide)
                    · split at h
                      next hcond =>
                        exfalso
                        rcases hcond with ⟨hvu, hbt⟩
                        rw [hv] at hvu
                        injection hvu with hveq
                        exact hundo hveq hbt
                      · split at h
                        next recip hd => rw [hdm] at hd; cases hd
                        next hd =>
                          rw [hv] at h
                          exact sendCommit_conflict_aux env did' _ v base hv3
                            hguard r h

/-- C4 witness: bridging a fresh user succeeds, and re-running `create_for`
on the resulting state returns it unchanged: same copies, no second PLC op,
no DNS re-install. -/
theorem C4_witness :
    ATProto.create_for envCreateOk wFreshUser = .ok wCreated
      ∧ ATProto.create_for envCreateOk wCreated = .ok wCreated :=
  ⟨by rfl,
   (C4_theorem).2 envCreateOk envCreateOk wFreshUser wCreated (by rfl) (by rfl)⟩

/-- C6: a delete whose (translated) object is the sending user's own DID
returns True — deactivating the repo and removing DNS — even when the base
object is missing, refuting the claim that every update/delete/undo with a
missing base returns False. -/
theorem C6_counterexample :
    ATProto.send envActorDel objActorDel =
      some { result := true, copiesBefore := [], copiesAfter := [],
             commitAttempted := false, action := none, deactivated := true,
             blockDeletes := false }
      ∧ envActorDel.baseObjLoaded = none ∧ objActorDel.verb = some "delete" := by
  refine ⟨by decide, rfl, rfl⟩

/-- C6 (amended): state conflicts become a False return, with two carve-outs
the code takes before the guard: a delete of the sending user's own actor
deactivates the repo and returns True, and an undo of a block deletes the
matching block records and returns True. For every other update/delete/undo
(not a DM) where the base object is missing, has no ATProto copy, or its copy
parses to a different repo or collection, `send` returns False without
attempting the commit; and whenever the attempted commit raises
`ValueError`/`InactiveRepo`, `send` returns False with the base object's
copies untouched. -/
theorem C6_theorem :
    (∀ (env : SendEnv) (obj : SendObj) (did v : String),
        obj.verb = some v → (v = "update" ∨ v = "delete" ∨ v = "undo") →
        obj.asType = v → env.userDid = some did → env.repoFound = true →
        (v = "delete" → env.atpBaseId ≠ did) →
        (v = "undo" → obj.innerType ≠ "block") →
        env.dmRecipient = none → stateConflict env did = true →
        ∃ o, ATProto.send env obj = some o ∧ o.result = false
          ∧ o.commitAttempted = false ∧ o.blockDeletes = false
          ∧ o.deactivated = false ∧ o.copiesAfter = o.copiesBefore)
      ∧ (∀ (env : SendEnv) (obj : SendObj) (o : SendOutcome),
          ATProto.send env obj = some o → o.commitAttempted = true →
          env.commitOk = false → o.result = false ∧ o.copiesAfter = o.copiesBefore) := by
  constructor
  · intro env obj did v hv hv3 hat hdid hrf hdel hundo hdm hconf
    exact send_conflict_aux env obj did v hv hv3 hat hdid hrf hdel hundo hdm hconf
      (ATProto.send env obj) rfl
  · intro env obj o h hca hck
    rcases send_cases env obj o h with ⟨hca', -, -⟩ | ⟨did, verb, base, hsc⟩
    · rw [hca'] at hca
      cases hca
    · exact sendCommit_commit_fail env did _ verb base o hsc hca hck

/-- C6 witness: an update whose stored copy lives in another repo returns
False with nothing committed. -/
theorem C6_witness :
    ∃ o, ATProto.send envConflict objUpd = some o ∧ o.result = false
      ∧ o.commitAttempted = false ∧ o.blockDeletes = false
      ∧ o.deactivated = false ∧ o.copiesAfter = o.copiesBefore :=
  C6_theorem.1 envConflict objUpd "did:plc:me" "update" rfl (by decide) rfl rfl
    rfl (by decide) (by decide) rfl (by decide)

/-- C2: `ATProto.send` returns True on a delete commit without adding any
entry to the base object's copies — its copies before and after are the same
list — refuting the claim that every True-returning send gains a copy. -/
theorem C2_counterexample :
    ATProto.send envDel objDel =
      some { result := true,
             copiesBefore := [ { uri := "at://did:plc:me/app.bsky.feed.post/123",
                                 protocol := "atproto" } ],
             copiesAfter := [ { uri := "at://did:plc:me/app.bsky.feed.post/123",
                                protocol := "atproto" } ],
             commitAttempted := true, action := some .delete,
             deactivated := false, blockDeletes := false } := by
  decide

/-- C2 (amended): only create and update commits add a destination-protocol
entry to the base object's copies; ATProto sends that return True through the
delete/undo commit, the actor-deactivate, flag, undo-block, or DM paths leave
copies untouched; and every successful `Nostr.send` replaces the object's
`nostr` copies with the single freshly published event's uri. -/
theorem C2_theorem :
    (∀ (env : SendEnv) (obj : SendObj) (o : SendOutcome),
        ATProto.send env obj = some o → o.result = true →
        (o.action = some .create ∨ o.action = some .update) →
        ∃ uri, o.copiesAfter = addCopy o.copiesBefore { uri := uri, protocol := "atproto" })
      ∧ (∀ (env : SendEnv) (obj : SendObj) (o : SendOutcome),
          ATProto.send env obj = some o → o.result = true →
          (o.action = none ∨ o.action = some .delete) →
          o.copiesAfter = o.copiesBefore)
      ∧ (∀ (env : NostrSendEnv) (cs res : List Target),
          Nostr.send env cs = (true, res) →
          res = addCopy (cs.filter fun c => c.protocol ≠ "nostr")
            { uri := env.eventUri, protocol := "nostr" }) := by
  refine ⟨?_, ?_, ?_⟩
  · intro env obj o h hres hact
    rcases send_cases env obj o h with ⟨-, hnone, -⟩ | ⟨did, verb, base, hsc⟩
    · rcases hact with hact | hact <;> rw [hnone] at hact <;> cases hact
    · rcases sendCommit_true_shape env did _ verb base o hsc hres with
        ⟨hdel, -⟩ | ⟨-, uri, hadd⟩
      · rcases hact with hact | hact <;> rw [hdel] at hact <;>
          (injection hact with hw; cases hw)
      · exact ⟨uri, hadd⟩
  · intro env obj o h hres hact
    rcases send_cases env obj o h with ⟨-, -, heq⟩ | ⟨did, verb, base, hsc⟩
    · exact heq
    · rcases sendCommit_true_shape env did _ verb base o hsc hres with
        ⟨-, heq⟩ | ⟨hcu, -⟩
      · exact heq
      · exfalso
        rcases hact with hact | hact <;> rcases hcu with hcu | hcu <;>
          rw [hact] at hcu <;> cases hcu
  · intro env cs res h
    unfold Nostr.send at h
    split at h
    · cases h
    · injection h with h1 h2
      exact h2.symm

/-- C2 witness: a create send adds exactly the fresh record's at:// Target. -/
theorem C2_witness :
    ATProto.send envCreate objNote = some oCreate
      ∧ ∃ uri, oCreate.copiesAfter =
          addCopy oCreate.copiesBefore { uri := uri, protocol := "atproto" } :=
  ⟨by decide,
   C2_theorem.1 envCreate objNote oCreate (by decide) (by decide) (.inl (by decide))⟩

end BridgyFed
